import Mathlib

/-!
# Verification of the `cinema` actor runtime core

A shallow embedding, in Lean 4, of the parts of the `cinema` crate that the
specification's claims are about:

* the error taxonomy (`src/error.rs`),
* the bounded mailbox and `Addr::try_send` / `Addr::send` /
  `Addr::send_timeout` (`src/address.rs`),
* the watcher list and `Addr::notify_watchers` (`src/address.rs`),
* the per-actor context, its stop signal and timers (`src/context.rs`),
* the child event loop spawned by `Context::spawn_child` (`src/context.rs`),
* the length-prefixed remote envelope codec (`src/remote/tcp.rs`),
* the cluster `Node` / `NodeInfo` status conversions (`src/remote/cluster.rs`).

Machine integers are modelled as `Nat` (with explicit `% 2 ^ w` where the Rust
code truncates), bytes as `Nat` values (`< 256` where it matters), fallible
operations as `Except` / `Option`, and the tokio channels as explicit queue
states threaded through the functions.
-/

namespace Cinema

/-! ## Error taxonomy — `src/error.rs`

```rust
pub enum MailboxError { MailboxClosed, Timeout, MailboxFull }
```
-/

inductive MailboxError where
  | MailboxClosed
  | Timeout
  | MailboxFull
deriving DecidableEq, Repr

/-! ## Bounded mailbox — tokio `mpsc::channel` as used by `src/address.rs`

The richer `Addr` variant (`src/address.rs`) holds a bounded
`mpsc::Sender<ActorMessage<A>>`.  We model the channel state seen by one
sender: the queue of not-yet-consumed elements, the capacity, and whether the
receiver has been dropped (which closes the channel).  Dropping the receiver
closes the underlying semaphore, and tokio's `try_send` checks the CLOSED bit
of the semaphore before it checks for available permits, so a closed channel
reports `Closed` even when it is also at capacity.
-/

structure Mailbox (α : Type) where
  queue : List α
  capacity : Nat
  closed : Bool
deriving DecidableEq, Repr

namespace Mailbox

/-- tokio bounded `Sender::try_send`: fails `Closed` if the receiver is gone
(checked first), `Full` if no permit is available, otherwise enqueues. -/
def trySend (mb : Mailbox α) (m : α) : Mailbox α × Except MailboxError Unit :=
  if mb.closed then (mb, .error .MailboxClosed)
  else if mb.capacity ≤ mb.queue.length then (mb, .error .MailboxFull)
  else ({ mb with queue := mb.queue ++ [m] }, .ok ())

/-- tokio bounded `Sender::send(..).await`: fails only when the channel is
closed; when the channel is merely full the call suspends until a permit is
available, so (in the terminating executions modelled here) it enqueues. -/
def sendAwait (mb : Mailbox α) (m : α) : Mailbox α × Except MailboxError Unit :=
  if mb.closed then (mb, .error .MailboxClosed)
  else ({ mb with queue := mb.queue ++ [m] }, .ok ())

end Mailbox

/-! ## `Addr::try_send` — `src/address.rs` lines 114–126

```rust
pub fn try_send<M>(&self, msg: M) -> Result<(), MailboxError> {
    let envelope = MessageEnvelope::new(msg);
    self.sender.try_send(ActorMessage::Sync(Box::new(envelope)))
        .map_err(|e| match e {
            mpsc::error::TrySendError::Full(_) => MailboxError::MailboxFull,
            mpsc::error::TrySendError::Closed(_) => MailboxError::MailboxClosed,
        })
}
```
The envelope wraps the message without observing it, so we model the mailbox
element type as the message itself. -/

namespace Addr

def try_send (mb : Mailbox α) (m : α) : Mailbox α × Except MailboxError Unit :=
  Mailbox.trySend mb m

end Addr

/-! ## Context stop signal — `src/context.rs` lines 24–70

`Context` stores `stop_signal : Option<Arc<Notify>>`.  `Context::new` sets it
to `None`, `Context::with_stop_signal` to `Some(signal)`.  `Context::stop`
fires `notify_one` on the signal if one is present and does nothing otherwise.
We model the `Notify` as the `Bool` "a permit has been stored", and carry the
other `Context` fields (shutdown signal state, children) so that `stop`'s
effect on the whole context state is visible. -/

structure ContextSt where
  /-- `stop_signal: Option<Arc<Notify>>`; `some b` = a signal is configured
  and `b` records whether it has been notified. -/
  stop_signal : Option Bool
  /-- state of the shared shutdown `Notify`. -/
  shutdown : Bool
  /-- stop-signal states of the children held in `children`. -/
  children : List Bool
deriving DecidableEq, Repr

namespace ContextSt

/-- `Context::new(addr, shutdown)` — no stop signal. -/
def new (shutdown : Bool) : ContextSt :=
  { stop_signal := none, shutdown := shutdown, children := [] }

/-- `Context::with_stop_signal(addr, stop_signal, shutdown)`. -/
def with_stop_signal (sig : Bool) (shutdown : Bool) : ContextSt :=
  { stop_signal := some sig, shutdown := shutdown, children := [] }

/-- `Context::stop`:
```rust
pub fn stop(&self) {
    if let Some(signal) = &self.stop_signal { signal.notify_one(); }
}
```
-/
def stop (c : ContextSt) : ContextSt :=
  match c.stop_signal with
  | none => c
  | some _ => { c with stop_signal := some true }

/-- `Context::stop_children`: fire each child's stop signal. -/
def stop_children (c : ContextSt) : ContextSt :=
  { c with children := c.children.map (fun _ => true) }

end ContextSt

/-! ## Watchers and `Addr::notify_watchers` — `src/address.rs` lines 164–201

```rust
pub(crate) fn notify_watchers(&self) {
    let watchers = self.watchers.lock().unwrap();
    for watcher in watchers.iter() { watcher.notify(self.id); }
}
impl<A> Watcher for Addr<A> where A: Actor + Handler<Terminated> {
    fn notify(&self, id: ActorId) { let _ = self.try_send(Terminated { id }); }
}
```
`ActorId` is modelled as `Nat`.  A watcher is an address of some other actor,
i.e. a handle on that actor's mailbox; we identify the registered watchers by
indices into a family of `n` watcher mailboxes, so that the same address
registered twice appears as the same index twice in the list.  `notify` is
`try_send` with the error discarded. -/

/-- `Terminated { id: ActorId }` — `src/message.rs`. -/
structure Terminated where
  id : Nat
deriving DecidableEq, Repr

/-- `Watcher::notify` for `Addr`: a `try_send` of `Terminated { id }` whose
result is discarded. -/
def Watcher.notify (mb : Mailbox Terminated) (id : Nat) : Mailbox Terminated :=
  (Addr.try_send mb ⟨id⟩).1

/-- `Addr::notify_watchers`: walk the registered watcher list in order and
`notify` each one with this actor's id. -/
def Addr.notify_watchers (id : Nat) (watchers : List (Fin n))
    (mbs : Fin n → Mailbox Terminated) : Fin n → Mailbox Terminated :=
  watchers.foldl
    (fun cur w => fun j => if j = w then Watcher.notify (cur w) id else cur j)
    mbs

/-! ## Unbounded mailbox and timers — `src/context.rs` lines 85–127

`Context::spawn_child` builds the child's address over
`mpsc::unbounded_channel`, and in this variant of the crate `do_send` is the
synchronous unbounded send (the integration tests call `addr.do_send(msg);`
from non-async contexts without awaiting).  An unbounded send succeeds exactly
when the receiver is still alive; the error is discarded by the timer tasks.
-/

structure UMailbox (α : Type) where
  queue : List α
  closed : Bool
deriving DecidableEq, Repr

/-- Unbounded `do_send`: enqueue unless the receiver is gone. -/
def UMailbox.do_send (mb : UMailbox α) (m : α) : UMailbox α :=
  if mb.closed then mb else { mb with queue := mb.queue ++ [m] }

/-- `Addr::is_alive`: `!self.sender.is_closed()`. -/
def UMailbox.is_alive (mb : UMailbox α) : Bool :=
  !mb.closed

/-- `Context::run_later` body, at the moment the sleep of length `delay`
elapses (`src/context.rs` lines 94–99):
```rust
tokio::time::sleep(delay).await;
if !handle_clone.is_cancelled() { addr.do_send(msg); }
```
`cancelled` is the state of the shared `TimerHandle` flag at that moment, `mb`
the state of the actor's own mailbox. -/
def run_later_fire (cancelled : Bool) (mb : UMailbox α) (msg : α) : UMailbox α :=
  if cancelled then mb else mb.do_send msg

/-- One observed tick of the `Context::run_interval` loop: the aliveness of
the target address and the cancellation flag of the `TimerHandle` at the
moment `ticker.tick()` returns. -/
structure Tick where
  alive : Bool
  cancelled : Bool
deriving DecidableEq, Repr

/-- `Context::run_interval` body (`src/context.rs` lines 115–124): given the
flag states observed at successive ticks, the number of `do_send` fires the
loop performs before it breaks (the list is the finite prefix of ticks we
observe; if the loop is still running at the end of the list it has fired once
per tick).
```rust
loop {
    ticker.tick().await;
    if !addr.is_alive() || handle_clone.is_cancelled() { break; }
    addr.do_send(msg.clone());
}
```
-/
def run_interval_fires : List Tick → Nat
  | [] => 0
  | t :: rest => if !t.alive || t.cancelled then 0 else run_interval_fires rest + 1

/-! ## The child event loop — `src/context.rs` lines 152–190

`Context::spawn_child` spawns a task that

1. runs `child.started(&mut child_ctx)` **directly** (no `catch_unwind`);
2. loops on `tokio::select!` over mailbox receive, the shared shutdown
   `Notify` and the child's stop `Notify`; a `Sync`/`Async` envelope is
   handled under `catch_unwind` and a panicking handler breaks the loop with
   `panic_occurred = true`; a closed channel, the shutdown signal or the stop
   signal break it with `false`;
3. after the loop runs, in order, `child_addr_for_notify.notify_watchers()`,
   `child_ctx.stop_children()` and `child.stopped(&mut child_ctx)` — the
   latter again **directly**, with no `catch_unwind`.

A panic in Rust code that is not wrapped in `catch_unwind` unwinds out of the
async block: the tokio task ends abnormally and none of the code after the
panicking call runs.  We record the task's behaviour as a trace of steps.  The
demultiplexed outcome of each `select!` round is an input (`LoopEvent`),
which lets one quantify over every interleaving of mailbox traffic and
signals. -/

/-- Outcome of one `tokio::select!` round in the child loop. -/
inductive LoopEvent where
  /-- `rx.recv()` returned `Some(envelope)`; the flag tells whether the
  handler bound into that envelope panics. -/
  | recv (handlerPanics : Bool)
  /-- `rx.recv()` returned `None`: every address clone was dropped. -/
  | chanClosed
  /-- `shutdown.notified()` completed. -/
  | shutdownFired
  /-- `child_stop_signal.notified()` completed. -/
  | stopFired
deriving DecidableEq, Repr

/-- Observable steps of the spawned child task. -/
inductive Step where
  /-- `child.started(&mut child_ctx)` was invoked. -/
  | startedRun
  /-- an envelope was handled under `catch_unwind`; the flag records whether
  its handler panicked (the panic is caught). -/
  | envelopeHandled (panicked : Bool)
  /-- `child_addr_for_notify.notify_watchers()` ran. -/
  | notifyWatchers
  /-- `child_ctx.stop_children()` ran. -/
  | stopChildren
  /-- `child.stopped(&mut child_ctx)` was invoked. -/
  | stoppedRun
  /-- a panic escaped the async block: the tokio task unwound and nothing
  after this step runs. -/
  | taskPanicked
  /-- the async block ran to completion. -/
  | taskExit
deriving DecidableEq, Repr

/-- The main loop (`src/context.rs` lines 155–181): consumes select outcomes
until one of the break conditions fires.  Returns the trace of handled
envelopes together with `some panic_occurred` if the loop exited, or `none`
if the given outcomes were exhausted with the loop still waiting. -/
def loopRun : List LoopEvent → List Step × Option Bool
  | [] => ([], none)
  | .recv p :: rest =>
      if p then ([.envelopeHandled true], some true)
      else
        let r := loopRun rest
        (.envelopeHandled false :: r.1, r.2)
  | .chanClosed :: _ => ([], some false)
  | .shutdownFired :: _ => ([], some false)
  | .stopFired :: _ => ([], some false)

/-- Trace of the whole task spawned by `Context::spawn_child`
(`src/context.rs` lines 152–190).  `startedPanics` / `stoppedPanics` say
whether the user's `started` / `stopped` hooks panic when invoked. -/
def childTaskTrace (startedPanics stoppedPanics : Bool)
    (events : List LoopEvent) : List Step :=
  if startedPanics then
    -- `started` is not under `catch_unwind`: the panic unwinds the task.
    [.startedRun, .taskPanicked]
  else
    let r := loopRun events
    .startedRun :: r.1 ++
      match r.2 with
      | none => []  -- still blocked in `select!`
      | some _ =>
          [.notifyWatchers, .stopChildren, .stoppedRun] ++
            -- `stopped` is not under `catch_unwind` either.
            if stoppedPanics then [.taskPanicked] else [.taskExit]

/-! ## `Addr::send` and `Addr::send_timeout` — `src/address.rs` lines 48–84

```rust
pub async fn send<M>(&self, msg: M) -> Result<M::Result, MailboxError> {
    let (tx, rx) = oneshot::channel();
    let envelope = MessageEnvelope::with_response(msg, tx);
    self.sender.send(ActorMessage::Sync(Box::new(envelope))).await
        .map_err(|_| MailboxError::MailboxClosed)?;
    rx.await.map_err(|_| MailboxError::MailboxClosed)
}
pub async fn send_timeout<M>(&self, msg: M, timeout: Duration) -> ... {
    ... same enqueue ...
    match tokio::time::timeout(timeout, rx).await {
        Ok(res) => res.map_err(|_| MailboxError::MailboxClosed),
        Err(_) => Err(MailboxError::Timeout),
    }
}
```
After the envelope is accepted, what the sender observes on the oneshot
receiver `rx` is an input of the model: either the handler posted a reply, or
the reply sender was dropped (handler panicked, envelope dropped unhandled,
mailbox closed before handling), and for the timed variant the deadline may
win the race instead.  Both functions return the mailbox as mutated by the
enqueue together with the result, which makes "the envelope is not revoked on
timeout" a statement about the returned mailbox. -/

/-- What `tokio::time::timeout(d, rx).await` yields. -/
inductive RecvWithin (ρ : Type) where
  /-- `Ok(Ok(r))`: the reply arrived within the deadline. -/
  | replied (r : ρ)
  /-- `Ok(Err(_))`: the reply sender was dropped within the deadline. -/
  | senderDropped
  /-- `Err(_)`: the deadline elapsed first. -/
  | deadline
deriving DecidableEq, Repr

namespace Addr

/-- `Addr::send`. `reply = some r` if the handler's reply reaches `rx`,
`none` if the reply sender is dropped. -/
def send (mb : Mailbox ε) (env : ε) (reply : Option ρ) :
    Mailbox ε × Except MailboxError ρ :=
  match Mailbox.sendAwait mb env with
  | (mb', .error e) => (mb', .error e)
  | (mb', .ok ()) =>
      (mb', match reply with
            | some r => .ok r
            | none => .error .MailboxClosed)

/-- `Addr::send_timeout`. -/
def send_timeout (mb : Mailbox ε) (env : ε) (rx : RecvWithin ρ) :
    Mailbox ε × Except MailboxError ρ :=
  match Mailbox.sendAwait mb env with
  | (mb', .error e) => (mb', .error e)
  | (mb', .ok ()) =>
      (mb', match rx with
            | .replied r => .ok r
            | .senderDropped => .error .MailboxClosed
            | .deadline => .error .Timeout)

end Addr

/-! ## Remote envelope codec — `src/remote/tcp.rs` lines 18–58

```rust
fn decode(&mut self, src: &mut BytesMut) -> Result<Option<Envelope>, io::Error> {
    if src.len() < 4 { return Ok(None); }
    let len = u32::from_be_bytes([src[0], src[1], src[2], src[3]]) as usize;
    if src.len() < 4 + len { src.reserve(4 + len - src.len()); return Ok(None); }
    src.advance(4);
    let payload = src.split_to(len);
    let envelope = Envelope::decode(payload.as_ref())
        .map_err(|e| io::Error::new(io::ErrorKind::InvalidData, e))?;
    Ok(Some(envelope))
}
fn encode(&mut self, item: Envelope, dst: &mut BytesMut) -> Result<(), io::Error> {
    let payload = item.to_bytes();
    let len = payload.len() as u32;
    dst.reserve(4 + payload.len());
    dst.put_u32(len);
    dst.extend_from_slice(&payload);
    Ok(())
}
```
Byte buffers are `List Nat` with entries `< 256`.  The framing layer is
parameterized by the payload decoder (`Envelope::decode`, i.e. prost), so its
behaviour can be stated independently of the protobuf model. -/

/-- The 4 big-endian bytes of `n as u32` (Rust truncates to 32 bits). -/
def be32 (n : Nat) : List Nat :=
  [n / 2 ^ 24 % 256, n / 2 ^ 16 % 256, n / 2 ^ 8 % 256, n % 256]

/-- `u32::from_be_bytes([src[0], src[1], src[2], src[3]])` on a buffer known
to hold at least 4 bytes. -/
def readBe32 : List Nat → Nat
  | b0 :: b1 :: b2 :: b3 :: _ => ((b0 * 256 + b1) * 256 + b2) * 256 + b3
  | _ => 0

/-- Result of one `Decoder::decode` call. -/
inductive DecodeOutcome (ε : Type) where
  /-- `Ok(None)` — need more bytes. -/
  | needMore
  /-- `Err(InvalidData)` — the payload failed to parse. -/
  | invalidData
  /-- `Ok(Some(e))`. -/
  | item (e : ε)
deriving DecidableEq, Repr

namespace EnvelopeCodec

/-- `EnvelopeCodec::decode`, with `payloadDecode` standing for the prost
`Envelope::decode`.  Returns the outcome and the buffer that remains. -/
def decode (payloadDecode : List Nat → Option ε) (src : List Nat) :
    DecodeOutcome ε × List Nat :=
  if src.length < 4 then (.needMore, src)
  else
    let len := readBe32 src
    if src.length < 4 + len then (.needMore, src)
    else
      -- src.advance(4); let payload = src.split_to(len);
      let payload := (src.drop 4).take len
      let rest := (src.drop 4).drop len
      match payloadDecode payload with
      | some e => (.item e, rest)
      | none => (.invalidData, rest)

/-- `EnvelopeCodec::encode`: append the 4-byte big-endian length and the
serialized payload to `dst`. -/
def encode (payload : List Nat) (dst : List Nat) : List Nat :=
  dst ++ be32 payload.length ++ payload

end EnvelopeCodec

/-! ## Protobuf `Envelope` payload codec

Modelled from the spec: the `proto::Envelope` type together with its
`to_bytes` / `Envelope::decode` (prost) implementations is generated by
`build.rs` from `proto/messages.proto`, which is not part of the source tree;
§6 of the specification fixes the record as
`{message_type: string, payload: bytes, correlation_id: u64,
sender_node: string, target_actor: string, is_response: bool}` serialized
with protocol-buffer encoding.  We model the prost wire format for this
record: fields are emitted in declaration order with tags 1–6, a field equal
to its default (empty string/bytes, `0`, `false`) is skipped, strings and
bytes are length-delimited (wire type 2), `u64` and `bool` are varints (wire
type 0), and a key byte is the varint of `tag * 8 + wireType`.  String fields
are carried as their UTF-8 byte sequences. -/

/-- The wire-level `proto::Envelope` record (string fields as UTF-8 bytes). -/
structure PEnvelope where
  message_type : List Nat
  payload : List Nat
  correlation_id : Nat
  sender_node : List Nat
  target_actor : List Nat
  is_response : Bool
deriving DecidableEq, Repr

/-- The all-defaults record prost starts decoding from. -/
def PEnvelope.default : PEnvelope :=
  { message_type := [], payload := [], correlation_id := 0,
    sender_node := [], target_actor := [], is_response := false }

/-- Little-endian base-128 varint encoding; prost emits at most 10 bytes for
a `u64`, which the fuel bounds. -/
def encVarintGo : Nat → Nat → List Nat
  | 0, _ => []
  | fuel + 1, n => if n < 128 then [n] else (n % 128 + 128) :: encVarintGo fuel (n / 128)

def encVarint (n : Nat) : List Nat :=
  encVarintGo 10 n

/-- Varint decoding: continuation bit 0x80, low 7 bits first. -/
def decVarint : List Nat → Option (Nat × List Nat)
  | [] => none
  | b :: rest =>
      if b < 128 then some (b, rest)
      else
        match decVarint rest with
        | some (n, r) => some (b - 128 + 128 * n, r)
        | none => none

/-- A length-delimited field (string/bytes): skipped when empty. -/
def encLenField (tag : Nat) (bs : List Nat) : List Nat :=
  if bs = [] then [] else encVarint (tag * 8 + 2) ++ encVarint bs.length ++ bs

/-- A varint field (`u64`/`bool` as 0 or 1): skipped when zero. -/
def encVarintField (tag : Nat) (n : Nat) : List Nat :=
  if n = 0 then [] else encVarint (tag * 8) ++ encVarint n

/-- prost encoding of the `Envelope` record (`Envelope::to_bytes`). -/
def PEnvelope.protoEncode (e : PEnvelope) : List Nat :=
  encLenField 1 e.message_type ++
    (encLenField 2 e.payload ++
      (encVarintField 3 e.correlation_id ++
        (encLenField 4 e.sender_node ++
          (encLenField 5 e.target_actor ++
            encVarintField 6 (if e.is_response then 1 else 0)))))

/-- Store a decoded varint field into the record; tags other than 3 and 6 with
wire type 0 do not occur in the schema and are skipped. -/
def setVarintField (e : PEnvelope) (tag : Nat) (v : Nat) : PEnvelope :=
  if tag = 3 then { e with correlation_id := v }
  else if tag = 6 then { e with is_response := v ≠ 0 }
  else e

/-- Store a decoded length-delimited field into the record; tags other than
1, 2, 4, 5 with wire type 2 do not occur in the schema and are skipped. -/
def setLenField (e : PEnvelope) (tag : Nat) (bs : List Nat) : PEnvelope :=
  if tag = 1 then { e with message_type := bs }
  else if tag = 2 then { e with payload := bs }
  else if tag = 4 then { e with sender_node := bs }
  else if tag = 5 then { e with target_actor := bs }
  else e

/-- The prost decoding loop: read a key varint, dispatch on the wire type,
store the field value, continue on the remaining bytes.  Only the wire types
the `Envelope` schema uses (0 and 2) are modelled; anything else fails.  The
fuel only bounds the number of fields: each decoded field consumes at least
one byte, so `fuel = src.length + 1` never runs out before the bytes do. -/
def decFields : Nat → List Nat → PEnvelope → Option PEnvelope
  | _, [], e => some e
  | 0, _ :: _, _ => none
  | fuel + 1, b :: bs, e =>
      match decVarint (b :: bs) with
      | none => none
      | some (key, r1) =>
          if key % 8 = 0 then
            match decVarint r1 with
            | none => none
            | some (v, r2) => decFields fuel r2 (setVarintField e (key / 8) v)
          else if key % 8 = 2 then
            match decVarint r1 with
            | none => none
            | some (len, r2) =>
                if len ≤ r2.length then
                  decFields fuel (r2.drop len) (setLenField e (key / 8) (r2.take len))
                else none
          else none

/-- prost `Envelope::decode`. -/
def PEnvelope.protoDecode (bs : List Nat) : Option PEnvelope :=
  decFields (bs.length + 1) bs PEnvelope.default

/-- A valid wire-level envelope: real byte values, a `u64` correlation id, and
LEN fields small enough for prost's `u32`-bounded lengths (the last bound also
keeps the framed length prefix exact). -/
def PEnvelope.wf (e : PEnvelope) : Prop :=
  (∀ b ∈ e.message_type, b < 256) ∧ (∀ b ∈ e.payload, b < 256) ∧
    (∀ b ∈ e.sender_node, b < 256) ∧ (∀ b ∈ e.target_actor, b < 256) ∧
    e.correlation_id < 2 ^ 64 ∧
    e.message_type.length < 2 ^ 32 ∧ e.payload.length < 2 ^ 32 ∧
    e.sender_node.length < 2 ^ 32 ∧ e.target_actor.length < 2 ^ 32 ∧
    e.protoEncode.length < 2 ^ 32

instance (e : PEnvelope) : Decidable e.wf := by
  unfold PEnvelope.wf
  infer_instance

/-! ## Cluster membership record — `src/remote/cluster.rs` lines 6–85

`NodeInfo`'s `status` field is a protobuf `i32`, modelled as `Int`. -/

inductive NodeStatus where
  | Up
  | Suspect
  | Down
deriving DecidableEq, Repr

structure Node where
  id : String
  addr : String
  status : NodeStatus
deriving DecidableEq, Repr

structure NodeInfo where
  id : String
  addr : String
  status : Int
deriving DecidableEq, Repr

/-- `impl From<&Node> for NodeInfo` (`src/remote/cluster.rs` lines 58–70). -/
def NodeInfo.ofNode (node : Node) : NodeInfo :=
  { id := node.id
    addr := node.addr
    status :=
      match node.status with
      | .Up => 0
      | .Suspect => 1
      | .Down => 2 }

/-- `impl From<NodeInfo> for Node` (`src/remote/cluster.rs` lines 72–85). -/
def Node.ofNodeInfo (info : NodeInfo) : Node :=
  { id := info.id
    addr := info.addr
    status :=
      if info.status = 0 then .Up
      else if info.status = 1 then .Suspect
      else if info.status = 2 then .Down
      else .Down }

/-! # Theorems -/

/-- Claim C9: for a `Context` constructed with `Context::new` (no stop
signal), `ctx.stop()` is a no-op — the whole context state is unchanged and
no signal fires — while for a context built with
`Context::with_stop_signal` the call stores a permit in the stop signal. -/
theorem stop_noop_without_signal :
    (∀ sh : Bool, ContextSt.stop (ContextSt.new sh) = ContextSt.new sh) ∧
    (∀ sig sh : Bool,
      ContextSt.stop (ContextSt.with_stop_signal sig sh) =
        { stop_signal := some true, shutdown := sh, children := [] }) := by
  constructor
  · intro sh
    rfl
  · intro sig sh
    rfl

/-- Claim C8: `NodeInfo` encodes `Up`/`Suspect`/`Down` as `0`/`1`/`2`,
decoding maps `0`/`1`/`2` back and every other status code to `Down`, and the
`Node → NodeInfo → Node` conversion preserves the status. -/
theorem node_status_codec :
    (∀ node : Node,
      (NodeInfo.ofNode node).status =
        match node.status with
        | .Up => 0
        | .Suspect => 1
        | .Down => 2) ∧
    (∀ info : NodeInfo,
      (Node.ofNodeInfo info).status =
        if info.status = 0 then .Up
        else if info.status = 1 then .Suspect
        else .Down) ∧
    (∀ node : Node, (Node.ofNodeInfo (NodeInfo.ofNode node)).status = node.status) := by
  refine ⟨fun node => rfl, fun info => ?_, fun node => ?_⟩
  · unfold Node.ofNodeInfo
    split_ifs <;> rfl
  · cases node with
    | mk id addr status => cases status <;> rfl

/-- Claim C5 (counterexample): on a mailbox that is at capacity but whose
receiver is gone, `try_send` returns `MailboxClosed`, not `MailboxFull` — so
"`MailboxFull` exactly when the mailbox is at capacity" fails as stated. -/
theorem try_send_full_closed_cex :
    (Mailbox.mk [0] 1 true).capacity ≤ (Mailbox.mk [0] 1 true).queue.length ∧
    (Addr.try_send (Mailbox.mk [0] 1 true) 1).2 ≠ .error .MailboxFull ∧
    (Addr.try_send (Mailbox.mk [0] 1 true) 1).2 = .error .MailboxClosed := by
  refine ⟨by decide, ?_, rfl⟩
  show (Except.error MailboxError.MailboxClosed : Except MailboxError Unit) ≠
    Except.error MailboxError.MailboxFull
  simp

/-- Claim C5 (amended): `try_send` returns `MailboxClosed` exactly when the
receiver is gone, `MailboxFull` exactly when the mailbox is open and at
capacity (closure takes priority over fullness), and `Ok` — enqueueing the
message — exactly when it is open with room; it never returns `Timeout`, and
`{MailboxClosed, MailboxFull, Timeout}` is the complete error taxonomy. -/
theorem try_send_characterization (mb : Mailbox α) (m : α) :
    ((Addr.try_send mb m).2 = .error .MailboxClosed ↔ mb.closed = true) ∧
    ((Addr.try_send mb m).2 = .error .MailboxFull ↔
      mb.closed = false ∧ mb.capacity ≤ mb.queue.length) ∧
    ((Addr.try_send mb m).2 = .ok () ↔
      mb.closed = false ∧ mb.queue.length < mb.capacity) ∧
    ((Addr.try_send mb m).2 = .ok () →
      (Addr.try_send mb m).1 = { mb with queue := mb.queue ++ [m] }) ∧
    (Addr.try_send mb m).2 ≠ .error .Timeout ∧
    (∀ e : MailboxError, e = .MailboxClosed ∨ e = .MailboxFull ∨ e = .Timeout) := by
  have taxonomy : ∀ e : MailboxError, e = .MailboxClosed ∨ e = .MailboxFull ∨ e = .Timeout := by
    intro e
    cases e
    · exact .inl rfl
    · exact .inr (.inr rfl)
    · exact .inr (.inl rfl)
  unfold Addr.try_send Mailbox.trySend
  by_cases hc : mb.closed
  · simp [hc, taxonomy]
  · by_cases hf : mb.capacity ≤ mb.queue.length
    · simp [hc, hf, taxonomy]
    · simp [hc, hf, taxonomy]
      omega

/-- Claim C4: `run_later`'s task, once the sleep elapses, enqueues the
message into the actor's own mailbox exactly when the `TimerHandle` has not
been cancelled and the address is alive; `run_interval`'s loop fires
`do_send` on every tick of the maximal prefix on which the target is alive
and the handle uncancelled, and breaks at the first tick where the target is
closed or the handle cancelled. -/
theorem timer_fires (mb : UMailbox α) (msg : α) (cancelled : Bool)
    (ticks : List Tick) :
    (run_later_fire cancelled mb msg =
      if cancelled = false ∧ mb.is_alive = true then
        { mb with queue := mb.queue ++ [msg] }
      else mb) ∧
    run_interval_fires ticks =
      (ticks.takeWhile (fun t => t.alive && !t.cancelled)).length := by
  constructor
  · unfold run_later_fire UMailbox.do_send UMailbox.is_alive
    cases cancelled <;> cases hm : mb.closed <;> simp [hm]
  · induction ticks with
    | nil => rfl
    | cons t rest ih =>
        unfold run_interval_fires
        cases ha : t.alive <;> cases hc : t.cancelled <;>
          simp [List.takeWhile, ha, hc, ih]

/-- Claim C6: `send_timeout` is `send` wrapped in a deadline.  If the mailbox
is closed at enqueue it returns `MailboxClosed`; otherwise the envelope is
enqueued — and stays enqueued whatever happens to the reply, so a timeout
does not revoke it and the handler may still execute — and the result is the
reply if it arrives in time, `MailboxClosed` if the reply sender is dropped,
and `Timeout` if the deadline elapses first; on the non-deadline outcomes it
returns exactly what `send` returns. -/
theorem send_timeout_spec (mb : Mailbox ε) (env : ε) :
    (mb.closed = true →
      ∀ rx : RecvWithin ρ, Addr.send_timeout mb env rx = (mb, .error .MailboxClosed)) ∧
    (mb.closed = false →
      (∀ rx : RecvWithin ρ,
        (Addr.send_timeout mb env rx).1 = { mb with queue := mb.queue ++ [env] }) ∧
      (∀ r : ρ, (Addr.send_timeout mb env (.replied r)).2 = .ok r) ∧
      (Addr.send_timeout (ρ := ρ) mb env .senderDropped).2 = .error .MailboxClosed ∧
      (Addr.send_timeout (ρ := ρ) mb env .deadline).2 = .error .Timeout) ∧
    (∀ r : ρ, Addr.send_timeout mb env (.replied r) = Addr.send mb env (some r)) ∧
    (Addr.send_timeout (ρ := ρ) mb env .senderDropped = Addr.send mb env (none : Option ρ)) ∧
    (Addr.send_timeout (ρ := ρ) mb env .deadline).1 = (Addr.send mb env (none : Option ρ)).1 := by
  by_cases hc : mb.closed <;>
    simp [Addr.send_timeout, Addr.send, Mailbox.sendAwait, hc]

/-- Claim C10: `EnvelopeCodec::decode` is total and incremental: with fewer
than 4 buffered bytes, or fewer than `4 + len` bytes where `len` is the
big-endian `u32` in the first four, it reports "need more" and consumes
nothing; with at least `4 + len` bytes it consumes exactly `4 + len` bytes
and returns the decoded payload, or an invalid-data error when the payload
decoder rejects it. -/
theorem codec_decode_incremental (D : List Nat → Option ε) (src : List Nat) :
    (src.length < 4 → EnvelopeCodec.decode D src = (.needMore, src)) ∧
    (4 ≤ src.length → src.length < 4 + readBe32 src →
      EnvelopeCodec.decode D src = (.needMore, src)) ∧
    (4 + readBe32 src ≤ src.length →
      EnvelopeCodec.decode D src =
        ((match D ((src.drop 4).take (readBe32 src)) with
          | some e => .item e
          | none => .invalidData),
         src.drop (4 + readBe32 src))) := by
  refine ⟨fun h => ?_, fun h4 h => ?_, fun h => ?_⟩
  · simp [EnvelopeCodec.decode, h]
  · rw [EnvelopeCodec.decode]
    simp only [if_neg (by omega : ¬src.length < 4)]
    simp [if_pos (by omega : src.length < 4 + readBe32 src)]
  · rw [EnvelopeCodec.decode]
    simp only [if_neg (by omega : ¬src.length < 4),
      if_neg (by omega : ¬src.length < 4 + readBe32 src)]
    have hdrop : (src.drop 4).drop (readBe32 src) = src.drop (4 + readBe32 src) := by
      simp [List.drop_drop, Nat.add_comm]
    rw [hdrop]
    cases D ((src.drop 4).take (readBe32 src)) <;> rfl

/-- Every step the main loop itself emits is an envelope being handled. -/
theorem loopRun_steps_are_envelopes (events : List LoopEvent) :
    ∀ x ∈ (loopRun events).1, ∃ p, x = .envelopeHandled p := by
  induction events with
  | nil =>
      intro x hx
      simp [loopRun] at hx
  | cons ev rest ih =>
      intro x hx
      cases ev with
      | recv p =>
          by_cases hp : p
          · subst hp
            simp [loopRun] at hx
            exact ⟨true, hx⟩
          · simp at hp
            subst hp
            simp [loopRun] at hx
            rcases hx with hx | hx
            · exact ⟨false, hx⟩
            · exact ih x hx
      | chanClosed => simp [loopRun] at hx
      | shutdownFired => simp [loopRun] at hx
      | stopFired => simp [loopRun] at hx

/-- The termination-sequence steps never occur inside the loop prefix. -/
theorem loopRun_count_zero (events : List LoopEvent) (s : Step)
    (hs : ∀ p, s ≠ .envelopeHandled p) : ((loopRun events).1).count s = 0 := by
  rw [List.count_eq_zero]
  intro hmem
  obtain ⟨p, hp⟩ := loopRun_steps_are_envelopes events s hmem
  exact hs p hp

/-- Claim C1 (counterexample): a panic in `started` unwinds the task before
the event loop: the trace ends at the panic, `stopped` never runs and the
watchers are never notified — refuting "the actor proceeds directly to the
termination sequence, so the stopped hook still runs". -/
theorem started_panic_skips_stopped_cex :
    childTaskTrace true false [] = [.startedRun, .taskPanicked] ∧
    Step.stoppedRun ∉ childTaskTrace true false [] ∧
    Step.notifyWatchers ∉ childTaskTrace true false [] := by
  decide

/-- Claim C1 (amended): `started` runs with no panic isolation — if it
panics, the task unwinds, the event loop is skipped and the termination
sequence is skipped too, so `stopped` never runs; when `started` returns,
`stopped` runs exactly once if and only if the loop exits (channel closed,
stop signal, shutdown signal, or a handler panic, which is caught). -/
theorem stopped_runs_iff_loop_exits (sp spp : Bool) (events : List LoopEvent) :
    (childTaskTrace sp spp events).count .stoppedRun =
      (if sp then 0 else if ((loopRun events).2).isSome then 1 else 0) ∧
    childTaskTrace true spp events = [.startedRun, .taskPanicked] := by
  have hz := loopRun_count_zero events .stoppedRun (by intro p h; cases h)
  constructor
  · cases sp with
    | true => simp [childTaskTrace]
    | false =>
        rw [childTaskTrace]
        simp only [Bool.false_eq_true, if_false]
        cases hexit : (loopRun events).2 with
        | none => simp [hexit, List.count_cons, List.count_append, hz]
        | some pan =>
            cases spp <;>
              simp [hexit, List.count_cons, List.count_append, hz]
  · simp [childTaskTrace]

/-- Claim C2 (counterexample): `stopped` does not run under panic isolation;
if the `stopped` hook panics, the panic escapes and the task unwinds instead
of exiting normally. -/
theorem stopped_not_isolated_cex :
    childTaskTrace false true [.chanClosed] =
      [.startedRun, .notifyWatchers, .stopChildren, .stoppedRun, .taskPanicked] ∧
    Step.taskExit ∉ childTaskTrace false true [.chanClosed] := by
  decide

/-- Claim C2 (amended): whenever the child event loop exits — channel closed,
stop signal, shutdown signal, or a handler panic — the same termination
sequence runs, in the fixed order: notify watchers, then stop children, then
the `stopped` hook, each exactly once; `stopped` is invoked directly (not
under panic isolation), so a panic in it unwinds the task after the
sequence. -/
theorem termination_sequence_order (spp : Bool) (events : List LoopEvent)
    (pan : Bool) (h : (loopRun events).2 = some pan) :
    childTaskTrace false spp events =
      (.startedRun :: (loopRun events).1) ++
        ([.notifyWatchers, .stopChildren, .stoppedRun] ++
          if spp then [.taskPanicked] else [.taskExit]) ∧
    (childTaskTrace false spp events).count .notifyWatchers = 1 ∧
    (childTaskTrace false spp events).count .stopChildren = 1 ∧
    (childTaskTrace false spp events).count .stoppedRun = 1 := by
  have htrace : childTaskTrace false spp events =
      (.startedRun :: (loopRun events).1) ++
        ([.notifyWatchers, .stopChildren, .stoppedRun] ++
          if spp then [.taskPanicked] else [.taskExit]) := by
    rw [childTaskTrace]
    simp [h]
  have h1 := loopRun_count_zero events .notifyWatchers (by intro p hp; cases hp)
  have h2 := loopRun_count_zero events .stopChildren (by intro p hp; cases hp)
  have h3 := loopRun_count_zero events .stoppedRun (by intro p hp; cases hp)
  refine ⟨htrace, ?_, ?_, ?_⟩ <;>
    rw [htrace] <;>
    cases spp <;>
      simp [List.count_cons, List.count_append, h1, h2, h3]

/-- Claim C3 (counterexample): a watcher whose own mailbox is already closed
(the watcher actor has terminated) receives nothing — `notify` is a
`try_send` with the error discarded — refuting "that watcher receives exactly
one `Terminated` message". -/
theorem watcher_closed_mailbox_cex :
    (Addr.notify_watchers 7 [(0 : Fin 1)] (fun _ => ⟨[], 16, true⟩) 0).queue = [] ∧
    ((Addr.notify_watchers 7 [(0 : Fin 1)] (fun _ => ⟨[], 16, true⟩) 0).queue.count
      ⟨7⟩ ≠ 1) := by
  decide

/-- Claim C3 (amended): delivery is best-effort.  Every watcher whose mailbox
is open and has room for the notifications receives exactly one
`Terminated { id }` per registration, with `id` the watched actor's id, for
every termination cause (`notify_watchers` runs unconditionally in the
termination sequence); in particular a watcher registered twice receives two
notifications.  A closed or full watcher mailbox is skipped. -/
theorem notify_watchers_delivery (id : Nat) (watchers : List (Fin n))
    (mbs : Fin n → Mailbox Terminated)
    (h : ∀ j, (mbs j).closed = false ∧
      (mbs j).queue.length + watchers.count j ≤ (mbs j).capacity) :
    ∀ j, (Addr.notify_watchers id watchers mbs j).queue =
        (mbs j).queue ++ List.replicate (watchers.count j) ⟨id⟩ ∧
      (Addr.notify_watchers id watchers mbs j).closed = false := by
  induction watchers generalizing mbs with
  | nil =>
      intro j
      simpa [Addr.notify_watchers] using (h j).1
  | cons w ws ih =>
      have hw := h w
      have hroom : (mbs w).queue.length < (mbs w).capacity := by
        have := hw.2
        have hcount : ws.count w + 1 = (w :: ws).count w := (List.count_cons_self w ws).symm
        omega
      have hnot : Watcher.notify (mbs w) id =
          { mbs w with queue := (mbs w).queue ++ [⟨id⟩] } := by
        unfold Watcher.notify Addr.try_send Mailbox.trySend
        rw [if_neg (by simp [hw.1]), if_neg (by omega)]
      have hstep : Addr.notify_watchers id (w :: ws) mbs =
          Addr.notify_watchers id ws
            (fun j => if j = w then Watcher.notify (mbs w) id else mbs j) := rfl
      have h' : ∀ j,
          (if j = w then Watcher.notify (mbs w) id else mbs j).closed = false ∧
          (if j = w then Watcher.notify (mbs w) id else mbs j).queue.length
              + ws.count j ≤
            (if j = w then Watcher.notify (mbs w) id else mbs j).capacity := by
        intro j
        by_cases hj : j = w
        · subst hj
          have h2 := (h j).2
          have hcount : ws.count j + 1 = (j :: ws).count j := (List.count_cons_self j ws).symm
          rw [if_pos rfl, hnot]
          refine ⟨(h j).1, ?_⟩
          simp only [List.length_append, List.length_singleton]
          omega
        · have h2 := (h j).2
          have hcount : (w :: ws).count j = ws.count j := List.count_cons_of_ne hj ws
          rw [if_neg hj]
          exact ⟨(h j).1, by omega⟩
      intro j
      rw [hstep]
      have hres := ih (fun j => if j = w then Watcher.notify (mbs w) id else mbs j) h' j
      by_cases hj : j = w
      · subst hj
        refine ⟨?_, hres.2⟩
        rw [hres.1]
        simp [hnot, List.count_cons_self, List.replicate_succ,
          List.append_assoc, List.singleton_append]
      · refine ⟨?_, hres.2⟩
        rw [hres.1]
        simp [if_neg hj, List.count_cons_of_ne hj]

/-- Witness for C2 (amended): a stop-signal exit runs the full termination
sequence in order. -/
theorem termination_sequence_order_witness :
    childTaskTrace false false [.stopFired] =
      [.startedRun, .notifyWatchers, .stopChildren, .stoppedRun, .taskExit] := by
  have h := termination_sequence_order false [.stopFired] false rfl
  simpa [loopRun] using h.1

/-- Witness for C3 (amended): a watcher address registered twice on an open,
roomy mailbox receives two `Terminated` notifications with the right id. -/
theorem notify_watchers_delivery_witness :
    (Addr.notify_watchers 5 [(0 : Fin 1), 0] (fun _ => ⟨[], 4, false⟩) 0).queue =
      [⟨5⟩, ⟨5⟩] := by
  have h := notify_watchers_delivery 5 [(0 : Fin 1), 0] (fun _ => ⟨[], 4, false⟩)
    (by decide) 0
  exact h.1.trans (by decide)

/-- Witness for C5 (amended): `try_send` on an open mailbox with room
enqueues the message and returns `Ok`. -/
theorem try_send_characterization_witness :
    (Addr.try_send (Mailbox.mk ([] : List Nat) 2 false) 5).2 = .ok () ∧
    (Addr.try_send (Mailbox.mk ([] : List Nat) 2 false) 5).1 = Mailbox.mk [5] 2 false := by
  have h := try_send_characterization (Mailbox.mk ([] : List Nat) 2 false) 5
  have hok : (Addr.try_send (Mailbox.mk ([] : List Nat) 2 false) 5).2 = .ok () :=
    (h.2.2.1).2 ⟨rfl, by norm_num⟩
  exact ⟨hok, (h.2.2.2.1 hok).trans rfl⟩

/-- Witness for C6: on an open mailbox the deadline branch leaves the
envelope enqueued and reports `Timeout`; on a closed mailbox the enqueue
fails with `MailboxClosed`. -/
theorem send_timeout_spec_witness :
    Addr.send_timeout (Mailbox.mk ([] : List Nat) 4 true) 9 (.deadline (ρ := Nat)) =
      (Mailbox.mk [] 4 true, .error .MailboxClosed) ∧
    (Addr.send_timeout (Mailbox.mk ([] : List Nat) 4 false) 9 (.deadline (ρ := Nat))).1 =
      Mailbox.mk [9] 4 false ∧
    (Addr.send_timeout (Mailbox.mk ([] : List Nat) 4 false) 9 (.deadline (ρ := Nat))).2 =
      .error .Timeout := by
  refine ⟨(send_timeout_spec _ 9).1 rfl _, ?_, ((send_timeout_spec _ 9).2.1 rfl).2.2.2⟩
  exact (((send_timeout_spec (Mailbox.mk ([] : List Nat) 4 false) 9).2.1 rfl).1
    (.deadline (ρ := Nat))).trans rfl

/-- Witness for C10: an incomplete buffer yields "need more" untouched; a
complete frame is consumed exactly and decoded. -/
theorem codec_decode_incremental_witness :
    EnvelopeCodec.decode (fun l => if l = [9] then some 1 else none) [0, 0] =
      (.needMore, [0, 0]) ∧
    EnvelopeCodec.decode (fun l => if l = [9] then some 1 else none) [0, 0, 0, 1, 9, 7] =
      (.item 1, [7]) := by
  constructor
  · exact (codec_decode_incremental _ _).1 (by norm_num)
  · have h := (codec_decode_incremental (fun l => if l = [9] then some 1 else none)
      [0, 0, 0, 1, 9, 7]).2.2 (by decide)
    exact h.trans (by decide)

/-! ### Varint and field-decoding lemmas for the protobuf payload codec -/

/-- Varints decode back to what was encoded, leaving the rest untouched. -/
theorem decVarint_encVarintGo (fuel : Nat) :
    ∀ n rest, n < 128 ^ (fuel + 1) →
      decVarint (encVarintGo (fuel + 1) n ++ rest) = some (n, rest) := by
  induction fuel with
  | zero =>
      intro n rest h
      rw [pow_one] at h
      simp [encVarintGo, h, decVarint]
  | succ f ih =>
      intro n rest h
      by_cases hn : n < 128
      · simp [encVarintGo, hn, decVarint]
      · have hdiv : n / 128 < 128 ^ (f + 1) := by
          rw [Nat.div_lt_iff_lt_mul (by norm_num)]
          calc n < 128 ^ (f + 1 + 1) := h
            _ = 128 ^ (f + 1) * 128 := by ring
        rw [encVarintGo]
        rw [if_neg hn]
        rw [List.cons_append, decVarint]
        rw [if_neg (by omega)]
        rw [ih (n / 128) rest hdiv]
        dsimp only
        have heq : n % 128 + 128 - 128 + 128 * (n / 128) = n := by omega
        rw [heq]

theorem decVarint_encVarint (n : Nat) (rest : List Nat) (h : n < 128 ^ 10) :
    decVarint (encVarint n ++ rest) = some (n, rest) :=
  decVarint_encVarintGo 9 n rest h

theorem encVarint_small (k : Nat) (h : k < 128) : encVarint k = [k] := by
  show encVarintGo (9 + 1) k = [k]
  rw [encVarintGo, if_pos h]

theorem encVarint_length_pos (n : Nat) : 1 ≤ (encVarint n).length := by
  show 1 ≤ (encVarintGo (9 + 1) n).length
  rw [encVarintGo]
  by_cases hn : n < 128
  · simp [hn]
  · simp [hn]

/-- Decoding one encoded length-delimited field stores it and moves on. -/
theorem decFields_lenField (f tag : Nat) (bs rest : List Nat) (e : PEnvelope)
    (htag : tag * 8 + 2 < 128) (hbs : bs ≠ []) (hlen : bs.length < 128 ^ 10) :
    decFields (f + 1) (encLenField tag bs ++ rest) e =
      decFields f rest (setLenField e tag bs) := by
  rw [encLenField, if_neg hbs]
  rw [encVarint_small (tag * 8 + 2) htag]
  simp only [List.append_assoc, List.cons_append, List.singleton_append]
  rw [decFields]
  rw [decVarint, if_pos htag]
  dsimp only
  have hk0 : ¬(tag * 8 + 2) % 8 = 0 := by omega
  have hk2 : (tag * 8 + 2) % 8 = 2 := by omega
  rw [if_neg hk0, if_pos hk2]
  simp only [List.nil_append]
  rw [decVarint_encVarint bs.length (bs ++ rest) hlen]
  dsimp only
  rw [if_pos (by simp)]
  have htake : (bs ++ rest).take bs.length = bs := List.take_left bs rest
  have hdrop : (bs ++ rest).drop bs.length = rest := List.drop_left bs rest
  rw [htake, hdrop]
  have hkey : (tag * 8 + 2) / 8 = tag := by omega
  rw [hkey]

/-- Decoding one encoded varint field stores it and moves on. -/
theorem decFields_varintField (f tag n : Nat) (rest : List Nat) (e : PEnvelope)
    (htag : tag * 8 < 128) (hn : n ≠ 0) (hsz : n < 128 ^ 10) :
    decFields (f + 1) (encVarintField tag n ++ rest) e =
      decFields f rest (setVarintField e tag n) := by
  rw [encVarintField, if_neg hn]
  rw [encVarint_small (tag * 8) htag]
  simp only [List.append_assoc, List.cons_append, List.singleton_append]
  rw [decFields]
  rw [decVarint, if_pos htag]
  dsimp only
  have hk0 : (tag * 8) % 8 = 0 := by omega
  rw [if_pos hk0]
  simp only [List.nil_append]
  rw [decVarint_encVarint n rest hsz]
  dsimp only
  have hkey : (tag * 8) / 8 = tag := by omega
  rw [hkey]

theorem encLenField_length_pos (tag : Nat) (bs : List Nat) (h : bs ≠ []) :
    1 ≤ (encLenField tag bs).length := by
  rw [encLenField, if_neg h]
  simp only [List.length_append]
  have := encVarint_length_pos (tag * 8 + 2)
  omega

theorem encVarintField_length_pos (tag n : Nat) (h : n ≠ 0) :
    1 ≤ (encVarintField tag n).length := by
  rw [encVarintField, if_neg h]
  simp only [List.length_append]
  have := encVarint_length_pos (tag * 8)
  omega

/-! ### Decoding the encoded fields back, last field first -/

theorem decode_from6 (mt pl sn ta : List Nat) (cid : Nat) (resp : Bool)
    (fuel : Nat) (hfuel : 1 ≤ fuel) :
    decFields fuel (encVarintField 6 (if resp then 1 else 0))
      ⟨mt, pl, cid, sn, ta, false⟩ = some ⟨mt, pl, cid, sn, ta, resp⟩ := by
  cases resp with
  | false => simp [encVarintField, decFields]
  | true =>
      obtain ⟨f, rfl⟩ : ∃ f, fuel = f + 1 := ⟨fuel - 1, by omega⟩
      rw [show (if (true : Bool) then 1 else 0) = 1 from rfl]
      rw [← List.append_nil (encVarintField 6 1)]
      rw [decFields_varintField f 6 1 [] _ (by norm_num) (by norm_num) (by norm_num)]
      simp [decFields, setVarintField]

theorem decode_from5 (mt pl sn ta : List Nat) (cid : Nat) (resp : Bool)
    (hta : ta.length < 128 ^ 10) (fuel : Nat)
    (hfuel : (encLenField 5 ta ++
      encVarintField 6 (if resp then 1 else 0)).length + 1 ≤ fuel) :
    decFields fuel
      (encLenField 5 ta ++ encVarintField 6 (if resp then 1 else 0))
      ⟨mt, pl, cid, sn, [], false⟩ = some ⟨mt, pl, cid, sn, ta, resp⟩ := by
  rw [List.length_append] at hfuel
  by_cases hta0 : ta = []
  · subst hta0
    rw [show encLenField 5 ([] : List Nat) = [] from rfl, List.nil_append]
    exact decode_from6 mt pl sn [] cid resp fuel (by omega)
  · obtain ⟨f, rfl⟩ : ∃ f, fuel = f + 1 := ⟨fuel - 1, by omega⟩
    rw [decFields_lenField f 5 ta _ _ (by norm_num) hta0 hta]
    rw [show setLenField ⟨mt, pl, cid, sn, [], false⟩ 5 ta =
      ⟨mt, pl, cid, sn, ta, false⟩ from rfl]
    have hpos := encLenField_length_pos 5 ta hta0
    exact decode_from6 mt pl sn ta cid resp f (by omega)

theorem decode_from4 (mt pl sn ta : List Nat) (cid : Nat) (resp : Bool)
    (hsn : sn.length < 128 ^ 10) (hta : ta.length < 128 ^ 10) (fuel : Nat)
    (hfuel : (encLenField 4 sn ++ (encLenField 5 ta ++
      encVarintField 6 (if resp then 1 else 0))).length + 1 ≤ fuel) :
    decFields fuel
      (encLenField 4 sn ++ (encLenField 5 ta ++
        encVarintField 6 (if resp then 1 else 0)))
      ⟨mt, pl, cid, [], [], false⟩ = some ⟨mt, pl, cid, sn, ta, resp⟩ := by
  rw [List.length_append] at hfuel
  by_cases hsn0 : sn = []
  · subst hsn0
    rw [show encLenField 4 ([] : List Nat) = [] from rfl, List.nil_append]
    exact decode_from5 mt pl [] ta cid resp hta fuel (by omega)
  · obtain ⟨f, rfl⟩ : ∃ f, fuel = f + 1 := ⟨fuel - 1, by omega⟩
    rw [decFields_lenField f 4 sn _ _ (by norm_num) hsn0 hsn]
    rw [show setLenField ⟨mt, pl, cid, [], [], false⟩ 4 sn =
      ⟨mt, pl, cid, sn, [], false⟩ from rfl]
    have hpos := encLenField_length_pos 4 sn hsn0
    exact decode_from5 mt pl sn ta cid resp hta f (by omega)

theorem decode_from3 (mt pl sn ta : List Nat) (cid : Nat) (resp : Bool)
    (hcid : cid < 128 ^ 10) (hsn : sn.length < 128 ^ 10)
    (hta : ta.length < 128 ^ 10) (fuel : Nat)
    (hfuel : (encVarintField 3 cid ++ (encLenField 4 sn ++ (encLenField 5 ta ++
      encVarintField 6 (if resp then 1 else 0)))).length + 1 ≤ fuel) :
    decFields fuel
      (encVarintField 3 cid ++ (encLenField 4 sn ++ (encLenField 5 ta ++
        encVarintField 6 (if resp then 1 else 0))))
      ⟨mt, pl, 0, [], [], false⟩ = some ⟨mt, pl, cid, sn, ta, resp⟩ := by
  rw [List.length_append] at hfuel
  by_cases hcid0 : cid = 0
  · subst hcid0
    rw [show encVarintField 3 0 = [] from rfl, List.nil_append]
    exact decode_from4 mt pl sn ta 0 resp hsn hta fuel (by omega)
  · obtain ⟨f, rfl⟩ : ∃ f, fuel = f + 1 := ⟨fuel - 1, by omega⟩
    rw [decFields_varintField f 3 cid _ _ (by norm_num) hcid0 hcid]
    rw [show setVarintField ⟨mt, pl, 0, [], [], false⟩ 3 cid =
      ⟨mt, pl, cid, [], [], false⟩ from rfl]
    have hpos := encVarintField_length_pos 3 cid hcid0
    exact decode_from4 mt pl sn ta cid resp hsn hta f (by omega)

theorem decode_from2 (mt pl sn ta : List Nat) (cid : Nat) (resp : Bool)
    (hpl : pl.length < 128 ^ 10) (hcid : cid < 128 ^ 10)
    (hsn : sn.length < 128 ^ 10) (hta : ta.length < 128 ^ 10) (fuel : Nat)
    (hfuel : (encLenField 2 pl ++ (encVarintField 3 cid ++ (encLenField 4 sn ++
      (encLenField 5 ta ++
        encVarintField 6 (if resp then 1 else 0))))).length + 1 ≤ fuel) :
    decFields fuel
      (encLenField 2 pl ++ (encVarintField 3 cid ++ (encLenField 4 sn ++
        (encLenField 5 ta ++ encVarintField 6 (if resp then 1 else 0)))))
      ⟨mt, [], 0, [], [], false⟩ = some ⟨mt, pl, cid, sn, ta, resp⟩ := by
  rw [List.length_append] at hfuel
  by_cases hpl0 : pl = []
  · subst hpl0
    rw [show encLenField 2 ([] : List Nat) = [] from rfl, List.nil_append]
    exact decode_from3 mt [] sn ta cid resp hcid hsn hta fuel (by omega)
  · obtain ⟨f, rfl⟩ : ∃ f, fuel = f + 1 := ⟨fuel - 1, by omega⟩
    rw [decFields_lenField f 2 pl _ _ (by norm_num) hpl0 hpl]
    rw [show setLenField ⟨mt, [], 0, [], [], false⟩ 2 pl =
      ⟨mt, pl, 0, [], [], false⟩ from rfl]
    have hpos := encLenField_length_pos 2 pl hpl0
    exact decode_from3 mt pl sn ta cid resp hcid hsn hta f (by omega)

theorem decode_from1 (mt pl sn ta : List Nat) (cid : Nat) (resp : Bool)
    (hmt : mt.length < 128 ^ 10) (hpl : pl.length < 128 ^ 10)
    (hcid : cid < 128 ^ 10) (hsn : sn.length < 128 ^ 10)
    (hta : ta.length < 128 ^ 10) (fuel : Nat)
    (hfuel : (PEnvelope.mk mt pl cid sn ta resp).protoEncode.length + 1 ≤ fuel) :
    decFields fuel (PEnvelope.mk mt pl cid sn ta resp).protoEncode
      PEnvelope.default = some ⟨mt, pl, cid, sn, ta, resp⟩ := by
  rw [show (PEnvelope.mk mt pl cid sn ta resp).protoEncode =
    encLenField 1 mt ++ (encLenField 2 pl ++ (encVarintField 3 cid ++
      (encLenField 4 sn ++ (encLenField 5 ta ++
        encVarintField 6 (if resp then 1 else 0))))) from rfl] at hfuel ⊢
  rw [List.length_append] at hfuel
  by_cases hmt0 : mt = []
  · subst hmt0
    rw [show encLenField 1 ([] : List Nat) = [] from rfl, List.nil_append]
    exact decode_from2 [] pl sn ta cid resp hpl hcid hsn hta fuel (by omega)
  · obtain ⟨f, rfl⟩ : ∃ f, fuel = f + 1 := ⟨fuel - 1, by omega⟩
    rw [decFields_lenField f 1 mt _ _ (by norm_num) hmt0 hmt]
    rw [show setLenField PEnvelope.default 1 mt =
      ⟨mt, [], 0, [], [], false⟩ from rfl]
    have hpos := encLenField_length_pos 1 mt hmt0
    exact decode_from2 mt pl sn ta cid resp hpl hcid hsn hta f (by omega)

/-- Reading back the 4 big-endian bytes recovers the length modulo `2^32`. -/
theorem readBe32_be32 (n : Nat) (rest : List Nat) :
    readBe32 (be32 n ++ rest) = n % 2 ^ 32 := by
  show ((n / 2 ^ 24 % 256 * 256 + n / 2 ^ 16 % 256) * 256 + n / 2 ^ 8 % 256) * 256
      + n % 256 = n % 2 ^ 32
  have h24 : (2 : Nat) ^ 24 = 16777216 := by norm_num
  have h16 : (2 : Nat) ^ 16 = 65536 := by norm_num
  have h8 : (2 : Nat) ^ 8 = 256 := by norm_num
  have h32 : (2 : Nat) ^ 32 = 4294967296 := by norm_num
  rw [h24, h16, h8, h32]
  omega

/-- Claim C7: the remote wire codec is a round-trip.  Encoding a valid
envelope writes the 4-byte big-endian length of the protobuf payload followed
by exactly that payload, and decoding the resulting byte sequence consumes it
entirely and yields the same envelope. -/
theorem envelope_roundtrip (e : PEnvelope) (h : e.wf) :
    EnvelopeCodec.encode e.protoEncode [] =
      be32 e.protoEncode.length ++ e.protoEncode ∧
    EnvelopeCodec.decode PEnvelope.protoDecode
      (EnvelopeCodec.encode e.protoEncode []) = (.item e, []) := by
  obtain ⟨mt, pl, cid, sn, ta, resp⟩ := e
  obtain ⟨hmt256, hpl256, hsn256, hta256, hcid, hmt, hpl, hsn, hta, henc⟩ := h
  dsimp only at hcid hmt hpl hsn hta
  have hbig : (2 : Nat) ^ 32 ≤ 128 ^ 10 := by norm_num
  have hcl : (2 : Nat) ^ 64 ≤ 128 ^ 10 := by norm_num
  refine ⟨by simp [EnvelopeCodec.encode], ?_⟩
  set L := (PEnvelope.mk mt pl cid sn ta resp).protoEncode with hL
  have hbuf : EnvelopeCodec.encode L [] = be32 L.length ++ L := by
    simp [EnvelopeCodec.encode]
  rw [hbuf]
  have hlen4 : (be32 L.length).length = 4 := rfl
  have hbuflen : (be32 L.length ++ L).length = 4 + L.length := by
    rw [List.length_append, hlen4]
  have hread : readBe32 (be32 L.length ++ L) = L.length := by
    rw [readBe32_be32, Nat.mod_eq_of_lt henc]
  rw [EnvelopeCodec.decode]
  rw [if_neg (by omega)]
  rw [hread]
  rw [if_neg (by omega)]
  have hdrop4 : (be32 L.length ++ L).drop 4 = L := by
    have := List.drop_left (be32 L.length) L
    rwa [hlen4] at this
  rw [hdrop4]
  simp only [List.take_length, List.drop_length]
  have hdec : PEnvelope.protoDecode L = some (PEnvelope.mk mt pl cid sn ta resp) := by
    rw [PEnvelope.protoDecode]
    exact decode_from1 mt pl sn ta cid resp (by omega) (by omega) (by omega)
      (by omega) (by omega) (L.length + 1) (by rw [← hL])
  rw [hdec]

/-- Witness for C7: the spec's S7 scenario — an envelope carrying the
protobuf encoding of `Ping { message: "Hello, World!" }` with
`message_type = "test::Ping"`, `correlation_id = 42`, `sender_node = "node"`,
`target_actor = "actor"` — is well-formed and round-trips. -/
theorem envelope_roundtrip_witness :
    (PEnvelope.mk [116, 101, 115, 116, 58, 58, 80, 105, 110, 103]
      [10, 13, 72, 101, 108, 108, 111, 44, 32, 87, 111, 114, 108, 100, 33]
      42 [110, 111, 100, 101] [97, 99, 116, 111, 114] false).wf ∧
    EnvelopeCodec.decode PEnvelope.protoDecode
      (EnvelopeCodec.encode
        (PEnvelope.mk [116, 101, 115, 116, 58, 58, 80, 105, 110, 103]
          [10, 13, 72, 101, 108, 108, 111, 44, 32, 87, 111, 114, 108, 100, 33]
          42 [110, 111, 100, 101] [97, 99, 116, 111, 114] false).protoEncode []) =
      (.item (PEnvelope.mk [116, 101, 115, 116, 58, 58, 80, 105, 110, 103]
        [10, 13, 72, 101, 108, 108, 111, 44, 32, 87, 111, 114, 108, 100, 33]
        42 [110, 111, 100, 101] [97, 99, 116, 111, 114] false), []) := by
  refine ⟨by decide, (envelope_roundtrip _ (by decide)).2⟩

end Cinema
